import Mathlib

/-!
Verification development for the valuation/routing subsystem and the
multi-provider JSON-RPC configuration layer of the repository.

Two parts:

* `MultiProvider` embeds `eth_defi/provider/multi_provider.py`
  (`create_multi_provider_web3`, `MultiProviderWeb3.get_transact_provider`,
  `get_call_provider`).  The endpoint-URL parsing performed by the external
  library call `urllib3.util.parse_url` is modelled by a small executable
  parser covering the scheme/authority/port behaviour the source relies on.
  The collaborators `FallbackProvider`, `MEVBlockerProvider` and
  `NamedProvider` are repository code that is not part of the given source
  tree; their small surface used here is modelled from the spec.

* `Valuation` embeds the NAV calculation engine
  (`NetAssetValueCalculator.calculate_market_sell_nav`,
  `PortfolioValuation.get_total_equity`, route building, quoting and
  multicall batching).  The module `eth_defi/vault/valuation.py` is not part
  of the given source tree (only its tests are), so the definitions are
  modelled from the spec, sections 3 and 4.

Python `Decimal` quantities are modelled as `ℚ`; Python dicts are modelled as
association lists whose keys are unique.
-/

namespace MultiProvider

/-- A parsed endpoint URL.  Models the result of `urllib3.util.parse_url` at
the granularity the source uses: the URL scheme (empty string when the URL
has no scheme, matching Python's falsy `None`/`""`) and the remainder of the
URL after the `"://"` separator.  Two parsed URLs are equal iff their
components are equal, as for the `urllib3` named tuple. -/
structure Url where
  scheme : String
  rest : String
  deriving DecidableEq, Repr

/-- Reassemble the URL string, as the `url` property of the `urllib3` result
does for the components this model keeps. -/
def Url.url (u : Url) : String :=
  if u.scheme = "" then u.rest else u.scheme ++ "://" ++ u.rest

/-- Split a character list at the first occurrence of `"://"`: returns the
characters before it and the characters after it, or `none` when the
separator does not occur. -/
def splitSchemeAux : List Char → Option (List Char × List Char)
  | [] => none
  | ':' :: '/' :: '/' :: r => some ([], r)
  | c :: r =>
    match splitSchemeAux r with
    | none => none
    | some (a, b) => some (c :: a, b)

/-- Split a character list at every `':'`. -/
def splitOnColonAux (cur : List Char) : List Char → List (List Char)
  | [] => [cur.reverse]
  | c :: cs =>
    if c = ':' then cur.reverse :: splitOnColonAux [] cs
    else splitOnColonAux (c :: cur) cs

/-- The authority component: everything up to the first `'/'` of the part of
the URL after the scheme. -/
def authorityOf (l : List Char) : List Char :=
  l.takeWhile (fun c => c ≠ '/')

/-- Port validation of `urllib3.util.parse_url`: when the authority contains
a `':'`, the characters after the last `':'` must all be digits (an empty
port is accepted).  A non-numeric port makes parsing fail. -/
def portOk (authority : List Char) : Bool :=
  let parts := splitOnColonAux [] authority
  if parts.length ≤ 1 then true
  else ((parts.getLast?).getD []).all Char.isDigit

/-- Model of the external library call `urllib3.util.parse_url`, at the
granularity the source relies on: the scheme is everything before the first
`"://"` (empty when there is none), and parsing raises `LocationParseError`
(modelled as `none`) when the authority carries a non-numeric port.
Userinfo (`user:pass@host`) and IPv6 bracket forms are outside the model. -/
def parse_url (s : String) : Option Url :=
  match splitSchemeAux s.toList with
  | none => if portOk (authorityOf s.toList) then some ⟨"", s⟩ else none
  | some (sch, r) =>
    if portOk (authorityOf r) then some ⟨String.mk sch, String.mk r⟩ else none

/-- Whitespace splitting of Python's `str.split()`: split at runs of
whitespace, discarding empty pieces. -/
def splitWsAux (cur : List Char) : List Char → List (List Char)
  | [] => if cur = [] then [] else [cur.reverse]
  | c :: cs =>
    if c.isWhitespace then
      if cur = [] then splitWsAux [] cs else cur.reverse :: splitWsAux [] cs
    else splitWsAux (c :: cur) cs

/-- The items of a configuration line: `configuration_line.split()`.  The
per-item `strip()` of the source is the identity on items produced by
whitespace splitting and is therefore not repeated here. -/
def config_items (line : String) : List String :=
  (splitWsAux [] line.toList).map String.mk

/-- Does the scheme start with `"mev+"`?  (`url.scheme.startswith("mev+")`.) -/
def schemeIsMev (scheme : String) : Bool :=
  match scheme.toList with
  | 'm' :: 'e' :: 'v' :: '+' :: _ => true
  | _ => false

/-- Python's `str.replace("mev+", "")`: remove every (left-to-right,
non-overlapping) occurrence of `"mev+"`. -/
def removeMevPlus : List Char → List Char
  | 'm' :: 'e' :: 'v' :: '+' :: r => removeMevPlus r
  | c :: r => c :: removeMevPlus r
  | [] => []

/-- The configuration errors raised by `create_multi_provider_web3`.  The
source raises a single exception class `MultiProviderConfigurationError`
with distinct messages; the constructors model the distinct messages. -/
inductive MultiProviderConfigurationError where
  | couldNotParse (item : String)
  | badUrl (item : String)
  | duplicateEntry (u : Url)
  | noEndpoints
  | tooManyTransact (endpoints : List String)
  | noCallEndpoints (line : String)
  deriving DecidableEq, Repr

/-- The URL-collection loop of `create_multi_provider_web3`: parse each item,
reject missing schemes and duplicate entries, and accumulate the parsed URLs
in order. -/
def parseUrlsLoop (acc : List Url) :
    List String → Except MultiProviderConfigurationError (List Url)
  | [] => .ok acc
  | item :: r =>
    match parse_url item with
    | none => .error (.couldNotParse item)
    | some u =>
      if u.scheme = "" then .error (.badUrl item)
      else if u ∈ acc then .error (.duplicateEntry u)
      else parseUrlsLoop (acc ++ [u]) r

/-- `transact_endpoints`: URLs whose scheme starts with `"mev+"`, with every
occurrence of `"mev+"` removed from the URL string. -/
def transactEndpoints (urls : List Url) : List String :=
  (urls.filter (fun u => schemeIsMev u.scheme)).map
    (fun u => String.mk (removeMevPlus u.url.toList))

/-- `call_endpoints`: URLs whose scheme does not start with `"mev+"`. -/
def callEndpoints (urls : List Url) : List String :=
  (urls.filter (fun u => ! schemeIsMev u.scheme)).map Url.url

/-- The provider object graph assembled by `create_multi_provider_web3`.
`http` is a plain `web3 HTTPProvider`; `fallback` models the repository's
`FallbackProvider` multiplexer (list of providers plus the index of the
currently active one); `mevBlocker` models `MEVBlockerProvider` (a call
provider plus a dedicated transact provider). -/
inductive Provider where
  | http (endpoint : String)
  | fallback (providers : List Provider) (active : Nat)
  | mevBlocker (callProvider : Provider) (transactProvider : Provider)

/-- Modelled from the spec: `FallbackProvider.get_active_provider` lives in
`eth_defi/provider/fallback.py`, which is not part of the given source tree.
Per the spec the fallback multiplexer keeps a list of read/call endpoints
consulted in round-robin, so its active provider is the entry at the current
index.  Calling `get_active_provider` on any other provider object (a plain
HTTP provider, or the MEV blocker) is a Python `AttributeError`, modelled as
`none`. -/
def get_active_provider : Provider → Option Provider
  | .fallback ps i => ps[i]?
  | _ => none

/-- `MultiProviderWeb3.get_call_provider`: on a `MEVBlockerProvider` return
the active provider of its call multiplexer, otherwise the active provider
of the provider itself (the source asserts the provider in question is a
`FallbackProvider`; an assertion failure is subsumed by `none`). -/
def get_call_provider (p : Provider) : Option Provider :=
  match p with
  | .mevBlocker call _ => get_active_provider call
  | other => get_active_provider other

/-- `MultiProviderWeb3.get_transact_provider`: on a `MEVBlockerProvider`
return its dedicated transact provider; otherwise the source evaluates
`self.get_call_provider().get_active_provider()`, i.e. it calls
`get_active_provider` a second time on the provider returned by
`get_call_provider`. -/
def get_transact_provider (p : Provider) : Option Provider :=
  match p with
  | .mevBlocker _ transact => some transact
  | other => (get_call_provider other).bind get_active_provider

/-- `create_multi_provider_web3`: split the configuration line, parse and
validate every URL, separate `mev+` execution endpoints from call endpoints,
enforce at most one execution endpoint, and assemble the provider graph.
The guard on the number of call endpoints compares the list length with zero
using a strict `<` over the integers, exactly as the source's
`len(call_endpoints) < 0`. -/
def create_multi_provider_web3 (configuration_line : String) :
    Except MultiProviderConfigurationError Provider :=
  let items := config_items configuration_line
  match parseUrlsLoop [] items with
  | .error e => .error e
  | .ok urls =>
    if urls.length = 0 then .error .noEndpoints
    else
      let transact_endpoints := transactEndpoints urls
      let call_endpoints := callEndpoints urls
      if 1 < transact_endpoints.length then
        .error (.tooManyTransact transact_endpoints)
      else if (call_endpoints.length : Int) < 0 then
        .error (.noCallEndpoints configuration_line)
      else
        let fallback_provider := Provider.fallback (call_endpoints.map Provider.http) 0
        match transact_endpoints with
        | [] => .ok fallback_provider
        | t :: _ => .ok (.mevBlocker fallback_provider (Provider.http t))

end MultiProvider

namespace Valuation

/-- Token identity: the model keys tokens by contract address alone (one
chain per valuation pass). -/
abbrev Address := String

/-- Modelled from the spec: a `Route` of `eth_defi/vault/valuation.py` (not
part of the given source tree) is a value object carrying source token,
target token (the denomination token), the path of token addresses, and the
designated quoter.  Quoters are identified by their position in the
caller-supplied quoter sequence so that routes compare by value. -/
structure Route where
  source : Address
  target : Address
  path : List Address
  quoter : Nat
  deriving DecidableEq, Repr

/-- Modelled from the spec: a quoter variant (`UniswapV2Router02Quoter`,
`UniswapV3Quoter`; `eth_defi/vault/valuation.py` is not part of the given
source tree) exposes one capability: simulate a sell of `amount_in` along a
path, producing `amount_out` or a quote failure.  Revert, decode failure and
zero-liquidity all eliminate the route and are collapsed into `none`; the
on-chain state at the pinned block is embedded in the function itself. -/
abbrev Quoter := List Address → ℚ → Option ℚ

/-- A portfolio: mapping from token address to held balance (a Python dict,
modelled as an association list with unique keys). -/
abbrev Portfolio := List (Address × ℚ)

/-- Modelled from the spec: the configuration of `NetAssetValueCalculator`
(`eth_defi/vault/valuation.py` is not part of the given source tree):
denomination token, allowed intermediary tokens, and the caller-declared
quoter priority sequence. -/
structure NetAssetValueCalculator where
  denomination_token : Address
  intermediary_tokens : List Address
  quoters : List Quoter

/-- Modelled from the spec: one simulated quote call scheduled for a
multicall batch: the route and the input amount (the full held balance). -/
structure BatchCall where
  route : Route
  amount : ℚ

/-- Modelled from the spec: the result object of a valuation pass: the
denomination token and one spot valuation per token, `none` being the
"unvalued" sentinel. -/
structure PortfolioValuation where
  denomination_token : Address
  spot_valuations : List (Address × Option ℚ)
  deriving DecidableEq, Repr

/-- Modelled from the spec: `RouteCatalog.build_routes`
(`eth_defi/vault/valuation.py` is not part of the given source tree).  For a
held token, emit in priority order one direct route per quoter (quoters in
the order supplied), then for each intermediary token a two-hop route per
quoter. -/
def build_routes (nav : NetAssetValueCalculator) (token : Address) : List Route :=
  (List.range nav.quoters.length).map
    (fun q => ⟨token, nav.denomination_token, [token, nav.denomination_token], q⟩)
  ++ nav.intermediary_tokens.flatMap
      (fun inter => (List.range nav.quoters.length).map
        (fun q => ⟨token, nav.denomination_token, [token, inter, nav.denomination_token], q⟩))

/-- Modelled from the spec: the batch calls of one valuation pass: for every
held token that is not the denomination token and has a nonzero balance, one
full-balance sell simulation per candidate route.  The denomination token
gets an implicit identity route with no call; a zero balance builds no
route. -/
def build_all_calls (nav : NetAssetValueCalculator) : Portfolio → List BatchCall
  | [] => []
  | (t, bal) :: r =>
    (if t = nav.denomination_token ∨ bal = 0 then []
     else (build_routes nav t).map (fun rt => ⟨rt, bal⟩))
    ++ build_all_calls nav r

/-- Dispatch one route's quote to its designated quoter. -/
def simulate_quote (qs : List Quoter) (rt : Route) (amount : ℚ) : Option ℚ :=
  match qs[rt.quoter]? with
  | some q => q rt.path amount
  | none => none

/-- Execute one batch call and tag the result with its originating route. -/
def runQuote (qs : List Quoter) (c : BatchCall) : Route × Option ℚ :=
  (c.route, simulate_quote qs c.route c.amount)

/-- Fixed-size grouping, with the list length as structural fuel (each step
consumes at least one element when the chunk size is positive). -/
def chunksAux (n : Nat) : Nat → List BatchCall → List (List BatchCall)
  | _, [] => []
  | 0, xs => [xs]
  | fuel + 1, xs => xs.take n :: chunksAux n fuel (xs.drop n)

/-- Modelled from the spec: `BatchExecutor` splits the input calls into
fixed-size groups. -/
def chunks (n : Nat) (xs : List BatchCall) : List (List BatchCall) :=
  chunksAux n xs.length xs

/-- Modelled from the spec: `BatchExecutor.execute`
(`eth_defi/vault/valuation.py` is not part of the given source tree): split
the calls into fixed-size batches, submit each batch as one aggregated
multicall in which a per-call failure never invalidates sibling calls, and
demultiplex the per-route results back in order. -/
def execute_batched (qs : List Quoter) (batch_size : Nat) (calls : List BatchCall) :
    List (Route × Option ℚ) :=
  ((chunks batch_size calls).map (fun group => group.map (runQuote qs))).flatten

/-- First-match association-list lookup (a Python dict access). -/
def assoc_lookup {κ β : Type} [DecidableEq κ] (k : κ) : List (κ × β) → Option β
  | [] => none
  | kv :: r => if kv.1 = k then some kv.2 else assoc_lookup k r

/-- Modelled from the spec: walk a token's candidate routes in priority
order; the first route whose quote succeeded with a strictly positive output
becomes the chosen valuation, every other outcome only eliminates that
route. -/
def first_successful (results : List (Route × Option ℚ)) (routes : List Route) :
    Option ℚ :=
  match routes with
  | [] => none
  | rt :: r =>
    match assoc_lookup rt results with
    | some (some v) => if 0 < v then some v else first_successful results r
    | _ => first_successful results r

/-- Modelled from the spec: the spot valuation of a single token: the
denomination token values to its own balance (identity route), a zero
balance values to zero, and otherwise the first successful route wins, with
the "unvalued" sentinel (`none`) when no route succeeded. -/
def spot_value (nav : NetAssetValueCalculator) (results : List (Route × Option ℚ))
    (t : Address) (bal : ℚ) : Option ℚ :=
  if t = nav.denomination_token then some bal
  else if bal = 0 then some 0
  else first_successful results (build_routes nav t)

/-- Modelled from the spec: `NetAssetValueCalculator.calculate_market_sell_nav`
(`eth_defi/vault/valuation.py` is not part of the given source tree): build
all candidate routes, dispatch every full-balance sell simulation through
the batch executor, and enumerate every portfolio token with its chosen
valuation or the "unvalued" sentinel. -/
def calculate_market_sell_nav (nav : NetAssetValueCalculator) (batch_size : Nat)
    (p : Portfolio) : PortfolioValuation :=
  let results := execute_batched nav.quoters batch_size (build_all_calls nav p)
  { denomination_token := nav.denomination_token
    spot_valuations := p.map (fun tb => (tb.1, spot_value nav results tb.1 tb.2)) }

/-- Modelled from the spec: `PortfolioValuation.get_total_equity`: the plain
sum of all non-sentinel spot valuations. -/
def get_total_equity (v : PortfolioValuation) : ℚ :=
  (v.spot_valuations.filterMap (fun e => e.2)).sum

/-- Did the route fail in the recorded results?  Covers every eliminating
outcome: no recorded result, a quote failure, and a non-positive output. -/
def route_failed (results : List (Route × Option ℚ)) (rt : Route) : Bool :=
  match assoc_lookup rt results with
  | some (some v) => decide (v ≤ 0)
  | _ => true

/-- Remove the first occurrence of a route from a candidate list. -/
def remove_route (rt : Route) : List Route → List Route
  | [] => []
  | r' :: rest => if r' = rt then rest else r' :: remove_route rt rest

/-- Demonstration chain state for witnesses, following the spec scenario
(USDC denomination, WETH intermediary, DINO priced only through the two-hop
route): the quoter answers the DINO two-hop path and the direct WETH path
and fails on every other route. -/
def demoQuoter : Quoter := fun path _amount =>
  if path = ["DINO", "WETH", "USDC"] then some 37
  else if path = ["WETH", "USDC"] then some 2500
  else none

/-- Demonstration calculator over `demoQuoter`. -/
def demoNav : NetAssetValueCalculator :=
  { denomination_token := "USDC", intermediary_tokens := ["WETH"],
    quoters := [demoQuoter] }

/-- Demonstration portfolio of the spec scenario. -/
def demoPortfolio : Portfolio := [("USDC", 35), ("WETH", 0), ("DINO", 547942)]

/-- A quoter whose every route fails (reverts / zero liquidity). -/
def failQuoter : Quoter := fun _path _amount => none

/-- Calculator all of whose quotes fail. -/
def failNav : NetAssetValueCalculator :=
  { denomination_token := "USDC", intermediary_tokens := ["WETH"],
    quoters := [failQuoter] }

/-- The direct DINO sell route of the demonstration calculator. -/
def demoDirectRoute : Route := ⟨"DINO", "USDC", ["DINO", "USDC"], 0⟩

/-- First-priority quoter: quotes the direct DINO route at 42. -/
def demoQ1 : Quoter := fun path _amount =>
  if path = ["DINO", "USDC"] then some 42 else none

/-- Second-priority quoter: quotes every route at 99. -/
def demoQ2 : Quoter := fun _path _amount => some 99

/-- Calculator with two quoters that can both quote DINO, `demoQ1` first. -/
def twoQuoterNav : NetAssetValueCalculator :=
  { denomination_token := "USDC", intermediary_tokens := ["WETH"],
    quoters := [demoQ1, demoQ2] }

end Valuation

namespace MultiProvider

theorem length_transact_le (urls : List Url) :
    (transactEndpoints urls).length ≤ urls.length := by
  simpa [transactEndpoints] using List.length_filter_le _ urls

theorem length_call_le (urls : List Url) :
    (callEndpoints urls).length ≤ urls.length := by
  simpa [callEndpoints] using List.length_filter_le _ urls

/-- Every error produced by the URL-collection loop is a parse, scheme, or
duplicate error. -/
theorem parseUrlsLoop_error_shape :
    ∀ (items : List String) (acc : List Url) (e : MultiProviderConfigurationError),
      parseUrlsLoop acc items = .error e →
      (∃ s, e = .couldNotParse s) ∨ (∃ s, e = .badUrl s) ∨
        (∃ u, e = .duplicateEntry u) := by
  intro items
  induction items with
  | nil => intro acc e h; simp [parseUrlsLoop] at h
  | cons x r ih =>
    intro acc e h
    simp only [parseUrlsLoop] at h
    cases hpx : parse_url x with
    | none =>
      rw [hpx] at h
      simp only [Except.error.injEq] at h
      exact Or.inl ⟨x, h.symm⟩
    | some u =>
      rw [hpx] at h
      dsimp only at h
      by_cases hsch : u.scheme = ""
      · rw [if_pos hsch] at h
        simp only [Except.error.injEq] at h
        exact Or.inr (Or.inl ⟨x, h.symm⟩)
      · rw [if_neg hsch] at h
        by_cases hdup : u ∈ acc
        · rw [if_pos hdup] at h
          simp only [Except.error.injEq] at h
          exact Or.inr (Or.inr ⟨u, h.symm⟩)
        · rw [if_neg hdup] at h
          exact ih (acc ++ [u]) e h

/-- An item that fails to parse, or parses without a scheme, forces the
URL-collection loop into an error. -/
theorem parseUrlsLoop_error_of_bad (s : String) :
    ∀ (items : List String) (acc : List Url), s ∈ items →
      (parse_url s = none ∨ ∃ u, parse_url s = some u ∧ u.scheme = "") →
      ∃ e, parseUrlsLoop acc items = .error e := by
  intro items
  induction items with
  | nil => intro acc h _; simp at h
  | cons x r ih =>
    intro acc hmem hbad
    cases hpx : parse_url x with
    | none => exact ⟨.couldNotParse x, by simp [parseUrlsLoop, hpx]⟩
    | some u =>
      by_cases hsch : u.scheme = ""
      · exact ⟨.badUrl x, by simp [parseUrlsLoop, hpx, hsch]⟩
      · by_cases hdup : u ∈ acc
        · exact ⟨.duplicateEntry u, by simp [parseUrlsLoop, hpx, hsch, hdup]⟩
        · have hsr : s ∈ r := by
            rcases List.mem_cons.mp hmem with rfl | hr
            · rcases hbad with hb | ⟨u', hu', hsc⟩
              · rw [hpx] at hb; exact absurd hb (by simp)
              · rw [hpx] at hu'
                injection hu' with h'
                exact absurd (h' ▸ hsc) hsch
            · exact hr
          have hrec := ih (acc ++ [u]) hsr hbad
          simpa [parseUrlsLoop, hpx, hsch, hdup] using hrec

/-- Once a URL is in the accumulator, a later item parsing to the same URL
forces the URL-collection loop into an error. -/
theorem parseUrlsLoop_error_of_seen (u : Url) :
    ∀ (items : List String) (acc : List Url), u ∈ acc →
      (∃ b ∈ items, parse_url b = some u) →
      ∃ e, parseUrlsLoop acc items = .error e := by
  intro items
  induction items with
  | nil => intro acc _ hb; simp at hb
  | cons x r ih =>
    intro acc hacc hb
    cases hpx : parse_url x with
    | none => exact ⟨.couldNotParse x, by simp [parseUrlsLoop, hpx]⟩
    | some ux =>
      by_cases hsch : ux.scheme = ""
      · exact ⟨.badUrl x, by simp [parseUrlsLoop, hpx, hsch]⟩
      · by_cases hdup : ux ∈ acc
        · exact ⟨.duplicateEntry ux, by simp [parseUrlsLoop, hpx, hsch, hdup]⟩
        · obtain ⟨b, hbin, hbu⟩ := hb
          have hbr : b ∈ r := by
            rcases List.mem_cons.mp hbin with rfl | h
            · rw [hpx] at hbu
              injection hbu with h'
              exact absurd (h' ▸ hacc) hdup
            · exact h
          have hrec := ih (acc ++ [ux]) (List.mem_append_left _ hacc) ⟨b, hbr, hbu⟩
          simpa [parseUrlsLoop, hpx, hsch, hdup] using hrec

/-- Two items parsing to the same URL force the URL-collection loop into an
error. -/
theorem parseUrlsLoop_error_of_dup (a b : String) (u : Url) (l2 : List String)
    (hb : b ∈ l2) (hpa : parse_url a = some u) (hpb : parse_url b = some u) :
    ∀ (l1 : List String) (acc : List Url),
      ∃ e, parseUrlsLoop acc (l1 ++ a :: l2) = .error e := by
  intro l1
  induction l1 with
  | nil =>
    intro acc
    by_cases hsch : u.scheme = ""
    · exact ⟨.badUrl a, by simp [parseUrlsLoop, hpa, hsch]⟩
    · by_cases hdup : u ∈ acc
      · exact ⟨.duplicateEntry u, by simp [parseUrlsLoop, hpa, hsch, hdup]⟩
      · have hrec := parseUrlsLoop_error_of_seen u l2 (acc ++ [u])
          (List.mem_append_right _ (by simp)) ⟨b, hb, hpb⟩
        simpa [parseUrlsLoop, hpa, hsch, hdup] using hrec
  | cons x r ih =>
    intro acc
    cases hpx : parse_url x with
    | none => exact ⟨.couldNotParse x, by simp [parseUrlsLoop, hpx]⟩
    | some ux =>
      by_cases hsch : ux.scheme = ""
      · exact ⟨.badUrl x, by simp [parseUrlsLoop, hpx, hsch]⟩
      · by_cases hdup : ux ∈ acc
        · exact ⟨.duplicateEntry ux, by simp [parseUrlsLoop, hpx, hsch, hdup]⟩
        · have hrec := ih (acc ++ [ux])
          simpa [parseUrlsLoop, hpx, hsch, hdup] using hrec

/-- An error of the URL-collection loop is the error of the whole
construction. -/
theorem create_error_of_loop (line : String) (e : MultiProviderConfigurationError)
    (h : parseUrlsLoop [] (config_items line) = .error e) :
    create_multi_provider_web3 line = .error e := by
  simp [create_multi_provider_web3, h]

/-- C7: a configuration line whose URLs comprise one `mev+`-prefixed
endpoint and two plain call endpoints produces exactly one execution
(transact) endpoint — the provider is a MEV blocker whose transact provider
is that single endpoint — while a line containing two `mev+`-prefixed
entries is rejected with a configuration error. -/
theorem C7_single_execution_endpoint (line : String) (urls : List Url)
    (hp : parseUrlsLoop [] (config_items line) = .ok urls) :
    ((transactEndpoints urls).length = 1 → (callEndpoints urls).length = 2 →
      ∃ t, transactEndpoints urls = [t] ∧
        create_multi_provider_web3 line =
          .ok (.mevBlocker (.fallback ((callEndpoints urls).map Provider.http) 0)
                (Provider.http t))) ∧
    ((transactEndpoints urls).length = 2 →
      create_multi_provider_web3 line =
        .error (.tooManyTransact (transactEndpoints urls))) := by
  constructor
  · intro h1 _h2
    obtain ⟨t, ht⟩ := List.length_eq_one.mp h1
    refine ⟨t, ht, ?_⟩
    have hlen : ¬ urls.length = 0 := by
      have hle := length_transact_le urls; omega
    have hnt : ¬ 1 < (transactEndpoints urls).length := by omega
    have hci : ¬ ((callEndpoints urls).length : Int) < 0 := by omega
    simp [create_multi_provider_web3, hp, hlen, hnt, hci, ht]
  · intro h2
    have hlen : ¬ urls.length = 0 := by
      have hle := length_transact_le urls; omega
    have hnt : 1 < (transactEndpoints urls).length := by omega
    simp [create_multi_provider_web3, hp, hlen, hnt]

/-- C7 witness: the concrete line with two call endpoints and one `mev+`
endpoint yields a MEV blocker with that single execution endpoint, and the
concrete line with two `mev+` entries is rejected. -/
theorem C7_single_execution_endpoint_witness :
    (∃ t, transactEndpoints
        [⟨"https", "a.example"⟩, ⟨"https", "b.example"⟩, ⟨"mev+https", "c.example"⟩] = [t] ∧
      create_multi_provider_web3
          "https://a.example https://b.example mev+https://c.example" =
        .ok (.mevBlocker
          (.fallback ((callEndpoints
            [⟨"https", "a.example"⟩, ⟨"https", "b.example"⟩,
              ⟨"mev+https", "c.example"⟩]).map Provider.http) 0)
          (Provider.http t))) ∧
    create_multi_provider_web3 "mev+https://a.example mev+https://b.example" =
      .error (.tooManyTransact (transactEndpoints
        [⟨"mev+https", "a.example"⟩, ⟨"mev+https", "b.example"⟩])) :=
  ⟨(C7_single_execution_endpoint
      "https://a.example https://b.example mev+https://c.example"
      [⟨"https", "a.example"⟩, ⟨"https", "b.example"⟩, ⟨"mev+https", "c.example"⟩]
      (by rfl)).1 (by rfl) (by rfl),
   (C7_single_execution_endpoint "mev+https://a.example mev+https://b.example"
      [⟨"mev+https", "a.example"⟩, ⟨"mev+https", "b.example"⟩]
      (by rfl)).2 (by rfl)⟩

/-- C8: a malformed endpoint configuration — an empty endpoint list, an
entry that does not parse as a URL, an entry without a URL scheme, or the
same URL appearing twice — makes `create_multi_provider_web3` return a
configuration error at setup (no provider is built: the error branch carries
no provider object, and the pure construction contains no retry). -/
theorem C8_malformed_configuration (line : String) :
    (config_items line = [] →
      create_multi_provider_web3 line = .error .noEndpoints) ∧
    (∀ s ∈ config_items line, parse_url s = none →
      ∃ e, create_multi_provider_web3 line = .error e) ∧
    (∀ s ∈ config_items line, ∀ u, parse_url s = some u → u.scheme = "" →
      ∃ e, create_multi_provider_web3 line = .error e) ∧
    (∀ (l1 : List String) (a : String) (l2 : List String) (b : String) (u : Url),
      config_items line = l1 ++ a :: l2 → b ∈ l2 →
      parse_url a = some u → parse_url b = some u →
      ∃ e, create_multi_provider_web3 line = .error e) := by
  refine ⟨?_, ?_, ?_, ?_⟩
  · intro h
    simp [create_multi_provider_web3, h, parseUrlsLoop]
  · intro s hs hp
    obtain ⟨e, he⟩ := parseUrlsLoop_error_of_bad s (config_items line) [] hs (Or.inl hp)
    exact ⟨e, create_error_of_loop line e he⟩
  · intro s hs u hp hsch
    obtain ⟨e, he⟩ := parseUrlsLoop_error_of_bad s (config_items line) [] hs
      (Or.inr ⟨u, hp, hsch⟩)
    exact ⟨e, create_error_of_loop line e he⟩
  · intro l1 a l2 b u hsplit hb hpa hpb
    obtain ⟨e, he⟩ := parseUrlsLoop_error_of_dup a b u l2 hb hpa hpb l1 []
    rw [← hsplit] at he
    exact ⟨e, create_error_of_loop line e he⟩

/-- C8 witness: the empty line, a line with a non-parsing entry (non-numeric
port), a line with a scheme-less entry, and a line repeating the same URL
each produce a configuration error. -/
theorem C8_malformed_configuration_witness :
    create_multi_provider_web3 "" = .error .noEndpoints ∧
    (∃ e, create_multi_provider_web3 "https://ok.example https://h:x" = .error e) ∧
    (∃ e, create_multi_provider_web3 "plainhost" = .error e) ∧
    (∃ e, create_multi_provider_web3 "https://a.example https://a.example" = .error e) :=
  ⟨(C8_malformed_configuration "").1 (by rfl),
   (C8_malformed_configuration "https://ok.example https://h:x").2.1
     "https://h:x" (by simp [config_items, splitWsAux]) (by rfl),
   (C8_malformed_configuration "plainhost").2.2.1
     "plainhost" (by simp [config_items, splitWsAux]) ⟨"", "plainhost"⟩ (by rfl) (by rfl),
   (C8_malformed_configuration "https://a.example https://a.example").2.2.2
     [] "https://a.example" ["https://a.example"] "https://a.example"
     ⟨"https", "a.example"⟩ (by rfl) (by simp) (by rfl) (by rfl)⟩

/-- C9: the guard `len(call_endpoints) < 0` can never fire — no
configuration line, in particular none whose entries all carry the `mev+`
prefix, makes `create_multi_provider_web3` raise the "at least one call
endpoint" error — and an all-`mev+` line that passes the other checks (a
single entry) proceeds to a provider whose call-provider list is empty. -/
theorem C9_no_call_endpoint_guard (line : String) :
    (∀ s, create_multi_provider_web3 line ≠ .error (.noCallEndpoints s)) ∧
    (∀ urls, parseUrlsLoop [] (config_items line) = .ok urls →
      (∀ u ∈ urls, schemeIsMev u.scheme = true) →
      callEndpoints urls = [] ∧
      (urls.length = 1 →
        ∃ t, create_multi_provider_web3 line =
          .ok (.mevBlocker (.fallback [] 0) (Provider.http t)))) := by
  constructor
  · intro s hcontra
    simp only [create_multi_provider_web3] at hcontra
    cases hloop : parseUrlsLoop [] (config_items line) with
    | error e =>
      rw [hloop] at hcontra
      simp only [Except.error.injEq] at hcontra
      rcases parseUrlsLoop_error_shape _ _ _ hloop with ⟨s', h⟩ | ⟨s', h⟩ | ⟨u, h⟩ <;>
        simp [hcontra] at h
    | ok urls =>
      rw [hloop] at hcontra
      dsimp only at hcontra
      by_cases h0 : urls.length = 0
      · rw [if_pos h0] at hcontra
        simp at hcontra
      · rw [if_neg h0] at hcontra
        by_cases h1 : 1 < (transactEndpoints urls).length
        · rw [if_pos h1] at hcontra
          simp at hcontra
        · rw [if_neg h1] at hcontra
          have h2 : ¬ ((callEndpoints urls).length : Int) < 0 := by omega
          rw [if_neg h2] at hcontra
          cases htr : transactEndpoints urls with
          | nil => rw [htr] at hcontra; simp at hcontra
          | cons t ts => rw [htr] at hcontra; simp at hcontra
  · intro urls hloop hmev
    have hcall : callEndpoints urls = [] := by
      simp only [callEndpoints, List.map_eq_nil_iff, List.filter_eq_nil_iff]
      intro u hu
      simp [hmev u hu]
    refine ⟨hcall, ?_⟩
    intro hlen1
    obtain ⟨u, hu⟩ := List.length_eq_one.mp hlen1
    have humev : schemeIsMev u.scheme = true := hmev u (by simp [hu])
    have htr : transactEndpoints urls = [String.mk (removeMevPlus u.url.toList)] := by
      simp [transactEndpoints, hu, humev]
    refine ⟨String.mk (removeMevPlus u.url.toList), ?_⟩
    have hlen : ¬ urls.length = 0 := by rw [hu]; simp
    have hnt : ¬ 1 < (transactEndpoints urls).length := by rw [htr]; simp
    have hci : ¬ ((callEndpoints urls).length : Int) < 0 := by omega
    simp [create_multi_provider_web3, hloop, hlen, hnt, hci, htr, hcall]

/-- C9 witness: a line whose single entry carries the `mev+` prefix is never
rejected for missing call endpoints, has no call endpoints, and builds a MEV
blocker over an empty fallback list. -/
theorem C9_no_call_endpoint_guard_witness :
    create_multi_provider_web3 "mev+https://a.example" ≠
      .error (.noCallEndpoints "mev+https://a.example") ∧
    callEndpoints [⟨"mev+https", "a.example"⟩] = [] ∧
    (∃ t, create_multi_provider_web3 "mev+https://a.example" =
      .ok (.mevBlocker (.fallback [] 0) (Provider.http t))) :=
  ⟨(C9_no_call_endpoint_guard "mev+https://a.example").1 "mev+https://a.example",
   ((C9_no_call_endpoint_guard "mev+https://a.example").2
      [⟨"mev+https", "a.example"⟩] (by rfl) (by decide)).1,
   ((C9_no_call_endpoint_guard "mev+https://a.example").2
      [⟨"mev+https", "a.example"⟩] (by rfl) (by decide)).2 (by rfl)⟩

/-- C10: when no `mev+` execution endpoint is configured the provider is a
fallback multiplexer over plain HTTP call providers.  `get_call_provider`
does return its currently active call provider, but `get_transact_provider`
then invokes `get_active_provider` a second time, on that plain HTTP
provider — an attribute lookup that fails (modelled `none`) instead of
returning the active call provider as intended. -/
theorem C10_transact_provider_fallback (e : String) (r : List String) :
    get_call_provider (Provider.fallback ((e :: r).map Provider.http) 0)
      = some (Provider.http e) ∧
    get_transact_provider (Provider.fallback ((e :: r).map Provider.http) 0)
      = none := by
  constructor <;>
    simp [get_call_provider, get_transact_provider, get_active_provider]

end MultiProvider

namespace Valuation

/-- A value chosen by the first-successful-route walk is strictly positive. -/
theorem first_successful_pos (results : List (Route × Option ℚ)) :
    ∀ (routes : List Route) (x : ℚ),
      first_successful results routes = some x → 0 < x := by
  intro routes
  induction routes with
  | nil => intro x h; simp [first_successful] at h
  | cons rt r ih =>
    intro x h
    rw [first_successful] at h
    cases hlk : assoc_lookup rt results with
    | none => rw [hlk] at h; exact ih x h
    | some ov =>
      cases ov with
      | none => rw [hlk] at h; exact ih x h
      | some v =>
        rw [hlk] at h
        dsimp only at h
        by_cases hv : 0 < v
        · rw [if_pos hv] at h
          injection h with h'
          exact h' ▸ hv
        · rw [if_neg hv] at h
          exact ih x h

/-- When every candidate route failed, the walk chooses nothing. -/
theorem first_successful_none (results : List (Route × Option ℚ)) :
    ∀ (routes : List Route),
      (∀ rt ∈ routes, route_failed results rt = true) →
      first_successful results routes = none := by
  intro routes
  induction routes with
  | nil => intro _; simp [first_successful]
  | cons rt r ih =>
    intro hall
    have hrt := hall rt (by simp)
    have hr : ∀ rt' ∈ r, route_failed results rt' = true := by
      intro rt' h'; exact hall rt' (by simp [h'])
    rw [first_successful]
    rw [route_failed] at hrt
    cases hlk : assoc_lookup rt results with
    | none => exact ih hr
    | some ov =>
      cases ov with
      | none => exact ih hr
      | some v =>
        rw [hlk] at hrt
        dsimp only at hrt
        have hv : ¬ 0 < v := by
          intro hpos
          rw [decide_eq_true_iff] at hrt
          exact absurd hrt (not_le.mpr hpos)
        dsimp only
        rw [if_neg hv]
        exact ih hr

/-- Removing one failed route from the candidate list does not change the
chosen valuation. -/
theorem first_successful_remove (results : List (Route × Option ℚ)) (rt : Route)
    (hfail : route_failed results rt = true) :
    ∀ (routes : List Route),
      first_successful results routes
        = first_successful results (remove_route rt routes) := by
  intro routes
  induction routes with
  | nil => simp [remove_route]
  | cons r' r ih =>
    rw [remove_route]
    by_cases he : r' = rt
    · subst he
      rw [if_pos rfl, first_successful]
      rw [route_failed] at hfail
      cases hlk : assoc_lookup r' results with
      | none => rfl
      | some ov =>
        cases ov with
        | none => rfl
        | some v =>
          rw [hlk] at hfail
          dsimp only at hfail
          have hv : ¬ 0 < v := by
            intro hpos
            rw [decide_eq_true_iff] at hfail
            exact absurd hfail (not_le.mpr hpos)
          dsimp only
          rw [if_neg hv]
    · rw [if_neg he, first_successful]
      rw [show first_successful results (r' :: remove_route rt r)
            = match assoc_lookup r' results with
              | some (some v) =>
                if 0 < v then some v else first_successful results (remove_route rt r)
              | _ => first_successful results (remove_route rt r)
          from rfl]
      cases hlk : assoc_lookup r' results with
      | none => exact ih
      | some ov =>
        cases ov with
        | none => exact ih
        | some v =>
          dsimp only
          rw [ih]

/-- Lookup distributes over append: the first list wins when it has the
key. -/
theorem assoc_lookup_append {κ β : Type} [DecidableEq κ] (k : κ) :
    ∀ (l1 l2 : List (κ × β)),
      assoc_lookup k (l1 ++ l2)
        = match assoc_lookup k l1 with
          | some v => some v
          | none => assoc_lookup k l2 := by
  intro l1 l2
  induction l1 with
  | nil => simp [assoc_lookup]
  | cons kv r ih =>
    by_cases h : kv.1 = k
    · simp [assoc_lookup, h]
    · simp only [List.cons_append, assoc_lookup, if_neg h]
      exact ih

/-- Lookup misses a list none of whose keys match. -/
theorem assoc_lookup_eq_none {κ β : Type} [DecidableEq κ] (k : κ) :
    ∀ (l : List (κ × β)), (∀ kv ∈ l, kv.1 ≠ k) → assoc_lookup k l = none := by
  intro l
  induction l with
  | nil => intro _; rfl
  | cons kv r ih =>
    intro h
    rw [assoc_lookup, if_neg (h kv (by simp))]
    exact ih (fun kv' h' => h kv' (by simp [h']))

/-- Lookup in a self-keyed map hits the tabulated value. -/
theorem assoc_lookup_map_self {β : Type} (f : Route → β) :
    ∀ (rs : List Route) (rt : Route), rt ∈ rs →
      assoc_lookup rt (rs.map (fun r' => (r', f r'))) = some (f rt) := by
  intro rs
  induction rs with
  | nil => intro rt h; simp at h
  | cons r' r ih =>
    intro rt hmem
    by_cases h : r' = rt
    · subst h; simp [assoc_lookup]
    · simp only [List.map_cons, assoc_lookup, if_neg h]
      exact ih rt (by
        rcases List.mem_cons.mp hmem with heq | hr
        · exact absurd heq.symm h
        · exact hr)

/-- Lookup of a key of an entry-keyed map, under unique keys. -/
theorem assoc_lookup_map_entry {β : Type} (g : Address × ℚ → β) :
    ∀ (p : Portfolio) (t : Address) (bal : ℚ),
      (p.map Prod.fst).Nodup → (t, bal) ∈ p →
      assoc_lookup t (p.map (fun tb => (tb.1, g tb))) = some (g (t, bal)) := by
  intro p
  induction p with
  | nil => intro t bal _ h; simp at h
  | cons tb r ih =>
    obtain ⟨t', b'⟩ := tb
    intro t bal hnd hmem
    rw [List.map_cons] at hnd
    obtain ⟨hnot, hnd'⟩ := List.nodup_cons.mp hnd
    by_cases h : t' = t
    · subst h
      rcases List.mem_cons.mp hmem with heq | hr
      · injection heq with h1 h2
        subst h2
        simp [assoc_lookup]
      · exact absurd (List.mem_map.mpr ⟨(t', bal), hr, rfl⟩) hnot
    · simp only [List.map_cons, assoc_lookup, if_neg h]
      exact ih t bal hnd' (by
        rcases List.mem_cons.mp hmem with heq | hr
        · exact absurd (congrArg Prod.fst heq).symm h
        · exact hr)

/-- Every route the catalog builds for a token has that token as source. -/
theorem build_routes_source (nav : NetAssetValueCalculator) (token : Address) :
    ∀ rt ∈ build_routes nav token, rt.source = token := by
  intro rt h
  simp only [build_routes, List.mem_append, List.mem_map, List.mem_flatMap,
    List.mem_range] at h
  rcases h with ⟨q, _, rfl⟩ | ⟨inter, _, q, _, rfl⟩ <;> rfl

/-- Flattening the fuelled grouping recovers the call list. -/
theorem chunksAux_flatten (n : Nat) (hn : 0 < n) :
    ∀ (fuel : Nat) (xs : List BatchCall), xs.length ≤ fuel →
      (chunksAux n fuel xs).flatten = xs := by
  intro fuel
  induction fuel with
  | zero =>
    intro xs h
    have hx : xs = [] := List.length_eq_zero.mp (Nat.le_zero.mp h)
    subst hx
    rfl
  | succ fuel ih =>
    intro xs h
    cases xs with
    | nil => rfl
    | cons x r =>
      show ((x :: r).take n :: chunksAux n fuel ((x :: r).drop n)).flatten = x :: r
      rw [List.flatten_cons]
      rw [ih ((x :: r).drop n) (by
        rw [List.length_drop]
        simp only [List.length_cons] at h ⊢
        omega)]
      exact List.take_append_drop n (x :: r)

/-- Flattening the batches recovers the call list. -/
theorem chunks_flatten (n : Nat) (hn : 0 < n) (xs : List BatchCall) :
    (chunks n xs).flatten = xs :=
  chunksAux_flatten n hn xs.length xs (le_refl _)

/-- Batch splitting is transparent to the demultiplexed results: executing
in batches of any positive size gives the one-by-one results. -/
theorem execute_batched_eq (qs : List Quoter) (batch_size : Nat) (hb : 0 < batch_size)
    (calls : List BatchCall) :
    execute_batched qs batch_size calls = calls.map (runQuote qs) := by
  rw [execute_batched]
  rw [show (fun group : List BatchCall => group.map (runQuote qs))
        = List.map (runQuote qs) from rfl]
  rw [← List.map_flatten, chunks_flatten batch_size hb]

/-- No batch call is ever issued for the denomination token. -/
theorem build_all_calls_sources (nav : NetAssetValueCalculator) :
    ∀ (p : Portfolio), ∀ c ∈ build_all_calls nav p,
      c.route.source ≠ nav.denomination_token := by
  intro p
  induction p with
  | nil => intro c h; simp [build_all_calls] at h
  | cons tb r ih =>
    obtain ⟨t', b'⟩ := tb
    intro c h
    rw [build_all_calls] at h
    rcases List.mem_append.mp h with h1 | h2
    · by_cases hskip : t' = nav.denomination_token ∨ b' = 0
      · rw [if_pos hskip] at h1; simp at h1
      · rw [if_neg hskip] at h1
        obtain ⟨rt, hrt, rfl⟩ := List.mem_map.mp h1
        have hsrc := build_routes_source nav t' rt hrt
        push_neg at hskip
        simpa [hsrc] using hskip.1
    · exact ih c h2

/-- Looking up any candidate route of a held token in the demultiplexed
results yields exactly that route's full-balance quote. -/
theorem assoc_lookup_build_all_calls (nav : NetAssetValueCalculator) (qs : List Quoter) :
    ∀ (p : Portfolio) (t : Address) (bal : ℚ),
      (p.map Prod.fst).Nodup → (t, bal) ∈ p →
      t ≠ nav.denomination_token → bal ≠ 0 →
      ∀ rt ∈ build_routes nav t,
        assoc_lookup rt ((build_all_calls nav p).map (runQuote qs))
          = some (simulate_quote qs rt bal) := by
  intro p
  induction p with
  | nil => intro t bal _ h; simp at h
  | cons tb r ih =>
    obtain ⟨t', b'⟩ := tb
    intro t bal hnd hmem ht hb rt hrt
    rw [List.map_cons] at hnd
    obtain ⟨hnot, hnd'⟩ := List.nodup_cons.mp hnd
    rw [build_all_calls, List.map_append, assoc_lookup_append]
    by_cases hteq : t' = t
    · subst hteq
      have hbal : b' = bal := by
        rcases List.mem_cons.mp hmem with heq | hr
        · injection heq with h1 h2; exact h2.symm
        · exact absurd (List.mem_map.mpr ⟨(t', bal), hr, rfl⟩) hnot
      subst hbal
      rw [if_neg (show ¬(t' = nav.denomination_token ∨ b' = 0) from by
        push_neg; exact ⟨ht, hb⟩)]
      rw [List.map_map]
      rw [show (runQuote qs ∘ fun rt' => ({ route := rt', amount := b' } : BatchCall))
            = fun rt' => (rt', simulate_quote qs rt' b') from rfl]
      rw [assoc_lookup_map_self (fun rt' => simulate_quote qs rt' b') _ rt hrt]
    · have hrtsrc := build_routes_source nav t rt hrt
      have hnone : assoc_lookup rt
          ((if t' = nav.denomination_token ∨ b' = 0 then []
            else (build_routes nav t').map
              (fun rt' => ({ route := rt', amount := b' } : BatchCall))).map
            (runQuote qs)) = none := by
        apply assoc_lookup_eq_none
        intro kv hkv
        by_cases hskip : t' = nav.denomination_token ∨ b' = 0
        · rw [if_pos hskip] at hkv; simp at hkv
        · rw [if_neg hskip] at hkv
          obtain ⟨c, hc, rfl⟩ := List.mem_map.mp hkv
          obtain ⟨rt', hrt', rfl⟩ := List.mem_map.mp hc
          intro hkvrt
          have hsrc' := build_routes_source nav t' rt' hrt'
          rw [show (runQuote qs { route := rt', amount := b' }).1 = rt' from rfl] at hkvrt
          rw [hkvrt, hrtsrc] at hsrc'
          exact hteq hsrc'.symm
      rw [hnone]
      have hmemr : (t, bal) ∈ r := by
        rcases List.mem_cons.mp hmem with heq | hr
        · exact absurd (congrArg Prod.fst heq).symm hteq
        · exact hr
      exact ih t bal hnd' hmemr ht hb rt hrt

end Valuation

namespace Valuation

/-- A spot valuation of a non-negative balance is non-negative whenever it
is not the sentinel. -/
theorem spot_value_nonneg (nav : NetAssetValueCalculator)
    (results : List (Route × Option ℚ)) (t : Address) (bal : ℚ)
    (hbal : 0 ≤ bal) (x : ℚ) (h : spot_value nav results t bal = some x) :
    0 ≤ x := by
  rw [spot_value] at h
  by_cases h1 : t = nav.denomination_token
  · rw [if_pos h1] at h
    injection h with h'
    exact h' ▸ hbal
  · rw [if_neg h1] at h
    by_cases h2 : bal = 0
    · rw [if_pos h2] at h
      injection h with h'
      exact le_of_eq h'
    · rw [if_neg h2] at h
      exact le_of_lt (first_successful_pos results _ x h)

/-- Every non-sentinel entry of a computed valuation is non-negative. -/
theorem calculate_entries_nonneg (nav : NetAssetValueCalculator) (batch_size : Nat)
    (p : Portfolio) (hpos : ∀ tb ∈ p, 0 ≤ tb.2) :
    ∀ e ∈ (calculate_market_sell_nav nav batch_size p).spot_valuations,
      ∀ x, e.2 = some x → 0 ≤ x := by
  intro e he x hx
  simp only [calculate_market_sell_nav] at he
  obtain ⟨tb, htb, rfl⟩ := List.mem_map.mp he
  exact spot_value_nonneg nav _ tb.1 tb.2 (hpos tb htb) x hx

/-- C1: for every input portfolio (with the non-negative balances a balance
snapshot delivers), the valuation returned by `calculate_market_sell_nav`
enumerates exactly one spot-valuation entry per input token — same length,
same keys in the same order, unique keys whenever the input keys are unique
— and every entry carries either a non-negative value or the "unvalued"
sentinel; no token is dropped. -/
theorem C1_every_token_enumerated (nav : NetAssetValueCalculator) (batch_size : Nat)
    (p : Portfolio) (hpos : ∀ tb ∈ p, 0 ≤ tb.2) :
    (calculate_market_sell_nav nav batch_size p).spot_valuations.length = p.length ∧
    (calculate_market_sell_nav nav batch_size p).spot_valuations.map Prod.fst
      = p.map Prod.fst ∧
    ((p.map Prod.fst).Nodup →
      ((calculate_market_sell_nav nav batch_size p).spot_valuations.map
        Prod.fst).Nodup) ∧
    (∀ e ∈ (calculate_market_sell_nav nav batch_size p).spot_valuations,
      ∀ x, e.2 = some x → 0 ≤ x) := by
  have hmap : (calculate_market_sell_nav nav batch_size p).spot_valuations.map Prod.fst
      = p.map Prod.fst := by
    simp only [calculate_market_sell_nav, List.map_map]
    rfl
  refine ⟨?_, hmap, ?_, calculate_entries_nonneg nav batch_size p hpos⟩
  · simp [calculate_market_sell_nav]
  · intro h
    rwa [hmap]

/-- C1 witness: the demonstration portfolio is enumerated completely. -/
theorem C1_every_token_enumerated_witness :
    (∀ tb ∈ demoPortfolio, 0 ≤ tb.2) ∧
    ((calculate_market_sell_nav demoNav 3 demoPortfolio).spot_valuations.length
        = demoPortfolio.length ∧
      (calculate_market_sell_nav demoNav 3 demoPortfolio).spot_valuations.map Prod.fst
        = demoPortfolio.map Prod.fst ∧
      ((demoPortfolio.map Prod.fst).Nodup →
        ((calculate_market_sell_nav demoNav 3 demoPortfolio).spot_valuations.map
          Prod.fst).Nodup) ∧
      (∀ e ∈ (calculate_market_sell_nav demoNav 3 demoPortfolio).spot_valuations,
        ∀ x, e.2 = some x → 0 ≤ x)) :=
  ⟨by decide, C1_every_token_enumerated demoNav 3 demoPortfolio (by decide)⟩

/-- C2: the total equity of a computed valuation is the plain sum of its
non-sentinel spot valuations (sentinel entries contribute nothing), and that
total is non-negative for the non-negative balances a balance snapshot
delivers. -/
theorem C2_total_equity_sum (nav : NetAssetValueCalculator) (batch_size : Nat)
    (p : Portfolio) (hpos : ∀ tb ∈ p, 0 ≤ tb.2) :
    get_total_equity (calculate_market_sell_nav nav batch_size p)
      = ((calculate_market_sell_nav nav batch_size p).spot_valuations.filterMap
          (fun e => e.2)).sum ∧
    0 ≤ get_total_equity (calculate_market_sell_nav nav batch_size p) := by
  refine ⟨rfl, ?_⟩
  rw [get_total_equity]
  apply List.sum_nonneg
  intro x hx
  obtain ⟨e, he, hex⟩ := List.mem_filterMap.mp hx
  exact calculate_entries_nonneg nav batch_size p hpos e he x hex

/-- C2 witness: total equity of the demonstration valuation. -/
theorem C2_total_equity_sum_witness :
    (∀ tb ∈ demoPortfolio, 0 ≤ tb.2) ∧
    (get_total_equity (calculate_market_sell_nav demoNav 3 demoPortfolio)
        = ((calculate_market_sell_nav demoNav 3 demoPortfolio).spot_valuations.filterMap
            (fun e => e.2)).sum ∧
      0 ≤ get_total_equity (calculate_market_sell_nav demoNav 3 demoPortfolio)) :=
  ⟨by decide, C2_total_equity_sum demoNav 3 demoPortfolio (by decide)⟩

/-- C3: for every portfolio and every quoter set, a held token equal to the
denomination token is valued at exactly its own balance (implicit identity
route), and no batch quote call is ever issued for the denomination
token. -/
theorem C3_denomination_identity (nav : NetAssetValueCalculator) (batch_size : Nat)
    (p : Portfolio) (bal : ℚ) (hnd : (p.map Prod.fst).Nodup)
    (hmem : (nav.denomination_token, bal) ∈ p) :
    assoc_lookup nav.denomination_token
        (calculate_market_sell_nav nav batch_size p).spot_valuations
      = some (some bal) ∧
    ∀ c ∈ build_all_calls nav p, c.route.source ≠ nav.denomination_token := by
  constructor
  · simp only [calculate_market_sell_nav]
    rw [assoc_lookup_map_entry
      (fun tb => spot_value nav
        (execute_batched nav.quoters batch_size (build_all_calls nav p)) tb.1 tb.2)
      p nav.denomination_token bal hnd hmem]
    simp [spot_value]
  · exact build_all_calls_sources nav p

/-- C3 witness: the demonstration portfolio's USDC position (the
denomination token) is valued at its balance of 35 and generates no quote
call. -/
theorem C3_denomination_identity_witness :
    (demoPortfolio.map Prod.fst).Nodup ∧
    (demoNav.denomination_token, (35 : ℚ)) ∈ demoPortfolio ∧
    (assoc_lookup demoNav.denomination_token
        (calculate_market_sell_nav demoNav 3 demoPortfolio).spot_valuations
      = some (some 35) ∧
      ∀ c ∈ build_all_calls demoNav demoPortfolio,
        c.route.source ≠ demoNav.denomination_token) :=
  ⟨by decide, by decide,
   C3_denomination_identity demoNav 3 demoPortfolio 35 (by decide) (by decide)⟩

/-- C4: a quote failure (missing result, revert/decode failure, or
non-positive output) is local: dropping that route from a candidate list
never changes the chosen valuation, and a held token all of whose candidate
routes failed is still enumerated by the completed pass, marked with the
"unvalued" sentinel instead of raising an error. -/
theorem C4_quote_failure_local (nav : NetAssetValueCalculator) (batch_size : Nat)
    (p : Portfolio) (t : Address) (bal : ℚ) (results : List (Route × Option ℚ))
    (routes : List Route) (rt : Route) :
    (route_failed results rt = true →
      first_successful results routes
        = first_successful results (remove_route rt routes)) ∧
    ((p.map Prod.fst).Nodup → (t, bal) ∈ p → t ≠ nav.denomination_token →
      bal ≠ 0 →
      (∀ rt' ∈ build_routes nav t,
        route_failed
          (execute_batched nav.quoters batch_size (build_all_calls nav p)) rt'
          = true) →
      assoc_lookup t (calculate_market_sell_nav nav batch_size p).spot_valuations
        = some none) := by
  constructor
  · intro hfail
    exact first_successful_remove results rt hfail routes
  · intro hnd hmem ht hb hall
    simp only [calculate_market_sell_nav]
    rw [assoc_lookup_map_entry
      (fun tb => spot_value nav
        (execute_batched nav.quoters batch_size (build_all_calls nav p)) tb.1 tb.2)
      p t bal hnd hmem]
    simp only [spot_value, if_neg ht, if_neg hb]
    rw [first_successful_none _ _ hall]

/-- C4 witness: with the always-failing quoter the DINO position is marked
"unvalued" while the pass still enumerates it, and dropping a failed route
leaves the selection unchanged. -/
theorem C4_quote_failure_local_witness :
    (route_failed [] demoDirectRoute = true ∧
      first_successful [] [demoDirectRoute]
        = first_successful [] (remove_route demoDirectRoute [demoDirectRoute])) ∧
    ((∀ rt' ∈ build_routes failNav "DINO",
        route_failed
          (execute_batched failNav.quoters 3 (build_all_calls failNav demoPortfolio))
          rt' = true) ∧
      assoc_lookup "DINO"
          (calculate_market_sell_nav failNav 3 demoPortfolio).spot_valuations
        = some none) :=
  ⟨⟨by decide,
    (C4_quote_failure_local failNav 3 demoPortfolio "DINO" 547942 []
      [demoDirectRoute] demoDirectRoute).1 (by decide)⟩,
   ⟨by decide,
    (C4_quote_failure_local failNav 3 demoPortfolio "DINO" 547942
      (execute_batched failNav.quoters 3 (build_all_calls failNav demoPortfolio))
      [demoDirectRoute] demoDirectRoute).2
      (by decide) (by decide) (by decide) (by decide) (by decide)⟩⟩

/-- C5: route evaluation is caller-declared priority, not quoter-set
iteration order: whenever the first-registered quoter's direct quote
succeeds with a strictly positive output, the token's chosen valuation is
exactly that quote, whatever any later-registered quoter would answer. -/
theorem C5_priority_first_quoter (nav : NetAssetValueCalculator) (q1 : Quoter)
    (qrest : List Quoter) (hq : nav.quoters = q1 :: qrest) (batch_size : Nat)
    (hbs : 0 < batch_size) (p : Portfolio) (t : Address) (bal v1 : ℚ)
    (hnd : (p.map Prod.fst).Nodup) (hmem : (t, bal) ∈ p)
    (ht : t ≠ nav.denomination_token) (hb : bal ≠ 0)
    (hq1 : q1 [t, nav.denomination_token] bal = some v1) (hpos : 0 < v1) :
    assoc_lookup t (calculate_market_sell_nav nav batch_size p).spot_valuations
      = some (some v1) := by
  simp only [calculate_market_sell_nav]
  rw [assoc_lookup_map_entry
    (fun tb => spot_value nav
      (execute_batched nav.quoters batch_size (build_all_calls nav p)) tb.1 tb.2)
    p t bal hnd hmem]
  simp only [spot_value, if_neg ht, if_neg hb]
  rw [execute_batched_eq nav.quoters batch_size hbs]
  have hhead : ∃ rest, build_routes nav t
      = (⟨t, nav.denomination_token, [t, nav.denomination_token], 0⟩ : Route)
          :: rest := by
    rw [build_routes, hq]
    rw [show (q1 :: qrest).length = qrest.length + 1 from rfl]
    rw [List.range_succ_eq_map, List.map_cons, List.cons_append]
    exact ⟨_, rfl⟩
  obtain ⟨rest, hroutes⟩ := hhead
  have hmemrt : (⟨t, nav.denomination_token, [t, nav.denomination_token], 0⟩ : Route)
      ∈ build_routes nav t := by
    rw [hroutes]
    exact List.mem_cons_self _ _
  have hlk := assoc_lookup_build_all_calls nav nav.quoters p t bal hnd hmem ht hb
    ⟨t, nav.denomination_token, [t, nav.denomination_token], 0⟩ hmemrt
  have hsq : simulate_quote nav.quoters
      (⟨t, nav.denomination_token, [t, nav.denomination_token], 0⟩ : Route) bal
      = some v1 := by
    rw [simulate_quote, hq]
    simpa using hq1
  rw [hroutes, first_successful, hlk, hsq]
  dsimp only
  rw [if_pos hpos]

/-- C5 witness: with `demoQ1` registered before the always-answering
`demoQ2`, both can quote DINO, and the chosen valuation is `demoQ1`'s 42,
not `demoQ2`'s 99. -/
theorem C5_priority_first_quoter_witness :
    (demoQ1 ["DINO", twoQuoterNav.denomination_token] 547942 = some 42 ∧
      demoQ2 ["DINO", twoQuoterNav.denomination_token] 547942 = some 99) ∧
    assoc_lookup "DINO"
        (calculate_market_sell_nav twoQuoterNav 3 demoPortfolio).spot_valuations
      = some (some 42) :=
  ⟨⟨by decide, by decide⟩,
   C5_priority_first_quoter twoQuoterNav demoQ1 [demoQ2] (by rfl) 3 (by decide)
     demoPortfolio "DINO" 547942 42 (by decide) (by decide) (by decide)
     (by decide) (by decide) (by decide)⟩

/-- C6: batch splitting is transparent to the result: valuing the same
portfolio against the same chain state with any two positive batch sizes
yields identical `PortfolioValuation` objects (only the number of multicall
round trips differs, and that count is not part of the result). -/
theorem C6_batch_size_transparent (nav : NetAssetValueCalculator) (b1 b2 : Nat)
    (h1 : 0 < b1) (h2 : 0 < b2) (p : Portfolio) :
    calculate_market_sell_nav nav b1 p = calculate_market_sell_nav nav b2 p := by
  simp only [calculate_market_sell_nav]
  rw [execute_batched_eq nav.quoters b1 h1, execute_batched_eq nav.quoters b2 h2]

/-- C6 witness: batch sizes 1 and 50 value the demonstration portfolio
identically. -/
theorem C6_batch_size_transparent_witness :
    0 < 1 ∧ 0 < 50 ∧
    calculate_market_sell_nav demoNav 1 demoPortfolio
      = calculate_market_sell_nav demoNav 50 demoPortfolio :=
  ⟨by decide, by decide,
   C6_batch_size_transparent demoNav 1 50 (by decide) (by decide) demoPortfolio⟩

end Valuation
